import Mathlib

/-!
Verification of the puzzlehunt server core (huntserver/models.py and
huntserver/info_views.py), shallowly embedded in Lean 4.

The database is modelled as explicit lists of records; `save` and the view
handlers become state-passing functions. Datetimes are modelled as `Int`
instants; Django's `DoesNotExist`/`ValidationError`/`IntegrityError` become
`Except`/`Option` results.
-/

namespace Huntserver

/-- A row of the `Hunt` model (models.py, class Hunt). `pk` is the primary
key Django adds implicitly; datetimes are `Int` instants. -/
structure Hunt where
  pk : Nat
  hunt_name : String
  hunt_number : Int
  team_size : Int
  start_date : Int
  end_date : Int
  location : String
  is_current_hunt : Bool
deriving DecidableEq, Repr

/-- Method `Hunt.clean` (models.py lines 26-34): if the instance being validated has
`is_current_hunt = False` but the stored row with the same pk has it `True`,
raise a `ValidationError`; a missing stored row (`ObjectDoesNotExist`) is
ignored. -/
def Hunt.clean (db : List Hunt) (self : Hunt) : Except String Unit :=
  if self.is_current_hunt then Except.ok ()
  else
    match db.find? (fun h => h.pk == self.pk) with
    | some old =>
        if old.is_current_hunt then
          Except.error "There must always be one current hunt"
        else Except.ok ()
    | none => Except.ok ()

/-- Method `Hunt.save` (models.py lines 36-41): inside one atomic transaction, run
`full_clean` (which calls `clean`); if the instance is current, update every
currently-current row to not current; then `super().save()` writes the
instance (update the row with its pk, or insert a new row). -/
def Hunt.save (db : List Hunt) (self : Hunt) : Except String (List Hunt) :=
  match Hunt.clean db self with
  | Except.error e => Except.error e
  | Except.ok () =>
      let db1 := if self.is_current_hunt
        then db.map (fun h => { h with is_current_hunt := false })
        else db
      if db1.any (fun h => h.pk == self.pk) then
        Except.ok (db1.map (fun h => if h.pk == self.pk then self else h))
      else
        Except.ok (db1 ++ [self])

/-- The database state after a `save` call, a failed save (raised
`ValidationError`) leaving the database as it was. -/
def Hunt.saveOrKeep (db : List Hunt) (self : Hunt) : List Hunt :=
  match Hunt.save db self with
  | Except.ok db' => db'
  | Except.error _ => db

/-- Property `is_locked` (models.py line 44): now < start_date. -/
def Hunt.is_locked (self : Hunt) (now : Int) : Bool :=
  now < self.start_date

/-- Property `is_open` (models.py line 48): now > start_date and now < end_date. -/
def Hunt.is_open (self : Hunt) (now : Int) : Bool :=
  now > self.start_date && now < self.end_date

/-- Property `is_public` (models.py line 52): now > end_date. -/
def Hunt.is_public (self : Hunt) (now : Int) : Bool :=
  now > self.end_date

/-- Python's `str.lower()`, as the code uses it on the ASCII identifiers
and answers it compares: lowercase each character. -/
def strLower (s : String) : String :=
  String.mk (s.data.map Char.toLower)

/-- A row of the `Puzzle` model, with the fields the claims use. -/
structure Puzzle where
  pk : Nat
  puzzle_number : Int
  puzzle_name : String
  puzzle_id : String
  answer : String
deriving DecidableEq, Repr

/-- A row of the `Submission` model (models.py, class Submission); the
`puzzle` foreign key is embedded as the referenced row. -/
structure Submission where
  team_pk : Nat
  submission_time : Int
  submission_text : String
  response_text : String
  puzzle : Puzzle
  modified_date : Int
deriving DecidableEq, Repr

/-- Property `Submission.is_correct` (models.py lines 138-140):
submission_text.lower() == puzzle.answer.lower(). -/
def Submission.is_correct (self : Submission) : Bool :=
  strLower self.submission_text == strLower self.puzzle.answer

/-- Method `Submission.save` (models.py lines 142-144): set `modified_date` to the
current time, then persist via `super().save()`. The returned record is the
row as persisted. -/
def Submission.save (self : Submission) (now : Int) : Submission :=
  { self with modified_date := now }

/-- Case-insensitive string equality as the spec words it: the two strings
agree once letter case is ignored (i.e. after lowercasing both). -/
def specCaseInsensitiveEq (a b : String) : Prop :=
  strLower a = strLower b

/-- A row of the `Solve` model (models.py, class Solve): foreign keys to
puzzle, team and the winning submission. -/
structure Solve where
  puzzle_pk : Nat
  team_pk : Nat
  submission_pk : Nat
deriving DecidableEq, Repr

/-- The database-level uniqueness constraint `unique_together ('puzzle',
'team')` on `Solve` (models.py lines 154-155): inserting a row whose
(puzzle, team) pair is already present raises an `IntegrityError`. -/
def insertSolve (db : List Solve) (s : Solve) : Except String (List Solve) :=
  if db.any (fun t => t.puzzle_pk == s.puzzle_pk && t.team_pk == s.team_pk) then
    Except.error "IntegrityError: UNIQUE constraint failed: solve.puzzle, solve.team"
  else
    Except.ok (db ++ [s])

/-- Modelled from the spec: the Submission Grader's Solve-creation step is
not under src/ (only the `Solve` model and its uniqueness constraint are).
Per the spec, the grader creates a Solve for the (team, puzzle) pair and
resolves a uniqueness-constraint failure by "catching the
uniqueness-constraint failure and treating it as already solved (idempotent
success) rather than propagating an error". -/
def gradeCreateSolve (db : List Solve) (s : Solve) : List Solve :=
  match insertSolve db s with
  | Except.ok db' => db'
  | Except.error _ => db

/-- At most one Solve row exists for every (puzzle, team) pair. -/
def SolveUnique (db : List Solve) : Prop :=
  ∀ p t : Nat, (db.countP (fun s => s.puzzle_pk == p && s.team_pk == t)) ≤ 1

/-- A row of the `Team` model (models.py, class Team); `members` is the
reverse side of `Person.teams` (the `person_set`), as person pks. -/
structure Team where
  pk : Nat
  team_name : String
  hunt_pk : Nat
  location : String
  join_code : String
  playtester : Bool
  members : List Nat
deriving DecidableEq, Repr

/-- The join-code alphabet of info_views.py line 33. -/
def joinCodeAlphabet : String := "ABCDEFGHJKLMNPQRSTUVWXYZ23456789"

/-- The 5-character join code built in info_views.py line 33; `choice` is
the random source, giving the index picked at each of the 5 draws
(reduced modulo the alphabet size, so any source yields in-alphabet picks,
as `random.choice` does). -/
def genJoinCode (choice : Nat → Nat) : String :=
  String.mk ((List.range 5).map
    (fun i => joinCodeAlphabet.toList.getD (choice i % joinCodeAlphabet.length) 'A'))

/-- Outcome of the `new_team` branch of `registration`. -/
inductive CreateOutcome where
  | fail_exists
  | created (t : Team)
  | no_create
deriving DecidableEq, Repr

/-- The `new_team` branch of `registration` (info_views.py lines 29-37):
reject when a team of the current hunt has a case-insensitively equal name
(`team_name__iexact`); otherwise, for a non-empty name, create the team with
a fresh 5-character join code and add the requesting user's person as a
member. `newpk` is the pk the database assigns to the created row. -/
def newTeam (db : List Team) (curr_hunt_pk : Nat) (name need_room : String)
    (person_pk : Nat) (choice : Nat → Nat) (newpk : Nat) :
    List Team × CreateOutcome :=
  if (db.filter (fun t => t.hunt_pk == curr_hunt_pk)).any
      (fun t => strLower t.team_name == strLower name) then
    (db, CreateOutcome.fail_exists)
  else if name ≠ "" then
    let t : Team :=
      { pk := newpk, team_name := name, hunt_pk := curr_hunt_pk,
        location := need_room, join_code := genJoinCode choice,
        playtester := false, members := [person_pk] }
    (db ++ [t], CreateOutcome.created t)
  else
    (db, CreateOutcome.no_create)

/-- Lookup `curr_hunt.team_set.get(team_name=...)` (info_views.py line 39): Django's
`.get` with an exact (case-sensitive) match; it raises `DoesNotExist` on zero
matches and `MultipleObjectsReturned` on several, both modelled as `none`. -/
def getTeamExact (db : List Team) (hunt_pk : Nat) (name : String) : Option Team :=
  match db.filter (fun t => t.hunt_pk == hunt_pk && t.team_name == name) with
  | [t] => some t
  | _ => none

/-- Outcome of the `join_team` branch of `registration`. -/
inductive JoinOutcome where
  | fail_full
  | fail_password
  | joined (t : Team)
  | lookup_error
deriving DecidableEq, Repr

/-- The `join_team` branch of `registration` (info_views.py lines 38-45):
look the team up by exact name within the current hunt (an unhandled lookup
exception when that fails); answer `fail-full` when the member count is
already at the hunt's `team_size`; answer `fail-password` when the supplied
code does not match the join code case-insensitively; otherwise add the
person to the team. -/
def joinTeam (db : List Team) (curr : Hunt) (name code : String)
    (person_pk : Nat) : List Team × JoinOutcome :=
  match getTeamExact db curr.pk name with
  | none => (db, JoinOutcome.lookup_error)
  | some team =>
      if (team.members.length : Int) ≥ curr.team_size then
        (db, JoinOutcome.fail_full)
      else if strLower team.join_code ≠ strLower code then
        (db, JoinOutcome.fail_password)
      else
        let team' := { team with members := team.members ++ [person_pk] }
        (db.map (fun t => if t.pk == team.pk then team' else t),
         JoinOutcome.joined team')

/-! Concrete fixture records for counterexamples and witnesses. -/

/-- A concrete hunt: runs from instant 5 to instant 10 and is current. -/
def huntA : Hunt :=
  { pk := 1, hunt_name := "Spring Hunt", hunt_number := 1, team_size := 2,
    start_date := 5, end_date := 10, location := "GHC", is_current_hunt := true }

/-- Record `huntA` with the current flag cleared, as a client would submit it. -/
def huntAOff : Hunt := { huntA with is_current_hunt := false }

/-- A second concrete hunt, also stored as current. -/
def huntB : Hunt :=
  { pk := 2, hunt_name := "Fall Hunt", hunt_number := 2, team_size := 4,
    start_date := 20, end_date := 30, location := "DH", is_current_hunt := true }

/-- A concrete puzzle whose canonical answer is "BANANA". -/
def bananaPuzzle : Puzzle :=
  { pk := 1, puzzle_number := 1, puzzle_name := "Fruit", puzzle_id := "a1",
    answer := "BANANA" }

/-- A concrete submission of "banana" against `bananaPuzzle`. -/
def bananaSubmission : Submission :=
  { team_pk := 1, submission_time := 6, submission_text := "banana",
    response_text := "", puzzle := bananaPuzzle, modified_date := 6 }

/-! Theorems for the claims. -/

/-- Clearing the current flag on every row leaves no current hunt. -/
lemma countP_current_clear (l : List Hunt) :
    (l.map (fun h => { h with is_current_hunt := false })).countP
      (fun h => h.is_current_hunt) = 0 := by
  rw [List.countP_map, List.countP_eq_zero]
  intro a _
  simp [Function.comp]

/-- In a table with pairwise-distinct primary keys, a pk that occurs
occurs in exactly one row. -/
lemma countP_pk_eq_one (l : List Hunt) (p : Nat)
    (hnd : (l.map Hunt.pk).Nodup)
    (hany : l.any (fun h => h.pk == p) = true) :
    l.countP (fun h => h.pk == p) = 1 := by
  induction l with
  | nil => simp at hany
  | cons a t ih =>
    rw [List.map_cons, List.nodup_cons] at hnd
    rw [List.countP_cons]
    by_cases hap : a.pk = p
    · have ht : t.countP (fun h => h.pk == p) = 0 := by
        rw [List.countP_eq_zero]
        intro b hb
        simp only [beq_iff_eq]
        intro hbp
        apply hnd.1
        have hba : b.pk = a.pk := by rw [hbp, hap]
        rw [← hba]
        exact List.mem_map_of_mem Hunt.pk hb
      simp [ht, hap]
    · have ha' : (a.pk == p) = false := by simp [hap]
      simp only [List.any_cons, ha', Bool.false_or] at hany
      simp only [ha', if_false]
      simpa using ih hnd.2 hany

/-- C1: saving a hunt whose `is_current_hunt` flag is set first clears the
flag on every other row, then writes the saved hunt, all inside the one
atomic `save`; afterwards exactly one hunt is current, namely the saved one.
Primary keys stay pairwise distinct, so the property holds after each save
of any sequence of such saves. -/
theorem C1_save_current_singleton (db : List Hunt) (self : Hunt)
    (hnd : (db.map Hunt.pk).Nodup) (hcur : self.is_current_hunt = true) :
    ∃ db', Hunt.save db self = Except.ok db' ∧
      db'.countP (fun h => h.is_current_hunt) = 1 ∧
      (∀ h ∈ db', h.is_current_hunt = true → h = self) ∧
      self ∈ db' ∧ (db'.map Hunt.pk).Nodup := by
  have hclean : Hunt.clean db self = Except.ok () := by
    simp [Hunt.clean, hcur]
  by_cases hany : db.any (fun h => h.pk == self.pk) = true
  case pos =>
    refine ⟨db.map (fun h =>
      if h.pk == self.pk then self
      else { h with is_current_hunt := false }), ?_, ?_, ?_, ?_, ?_⟩
    · simp only [Hunt.save, hclean, hcur, if_true]
      have hany1 : (db.map (fun h =>
          ({ h with is_current_hunt := false } : Hunt))).any
          (fun h => h.pk == self.pk) = true := by
        rw [List.any_map]; exact hany
      rw [if_pos hany1, List.map_map]
      rfl
    · rw [List.countP_map]
      have hcongr : db.countP
          ((fun h : Hunt => h.is_current_hunt) ∘ (fun h =>
            if h.pk == self.pk then self
            else { h with is_current_hunt := false }))
          = db.countP (fun h => h.pk == self.pk) := by
        apply List.countP_congr
        intro a _
        by_cases hap : (a.pk == self.pk) = true
        · simp [Function.comp, hap, hcur]
        · simp [Function.comp, hap]
      rw [hcongr]
      exact countP_pk_eq_one db self.pk hnd hany
    · intro h hmem hcurh
      rcases List.mem_map.mp hmem with ⟨a, _, rfl⟩
      by_cases hap : (a.pk == self.pk) = true
      · simp [hap]
      · simp only [hap, if_false] at hcurh ⊢
        simp at hcurh
    · rcases List.any_eq_true.mp hany with ⟨a, ha, hap⟩
      apply List.mem_map.mpr
      exact ⟨a, ha, by simp [hap]⟩
    · have : (db.map (fun h =>
          if h.pk == self.pk then self
          else { h with is_current_hunt := false })).map Hunt.pk
          = db.map Hunt.pk := by
        rw [List.map_map]
        apply List.map_congr_left
        intro a _
        by_cases hap : (a.pk == self.pk) = true
        · simp only [Function.comp, hap, if_true]
          exact (beq_iff_eq.mp hap).symm
        · simp [Function.comp, hap]
      rw [this]; exact hnd
  case neg =>
    rw [Bool.not_eq_true] at hany
    refine ⟨db.map (fun h => { h with is_current_hunt := false }) ++ [self],
      ?_, ?_, ?_, ?_, ?_⟩
    · simp only [Hunt.save, hclean, hcur, if_true]
      have hany1 : (db.map (fun h =>
          ({ h with is_current_hunt := false } : Hunt))).any
          (fun h => h.pk == self.pk) = false := by
        rw [List.any_map]; exact hany
      rw [if_neg (by simp [hany1])]
    · rw [List.countP_append, countP_current_clear]
      simp [hcur]
    · intro h hmem hcurh
      rcases List.mem_append.mp hmem with hl | hr
      · rcases List.mem_map.mp hl with ⟨a, _, rfl⟩
        simp at hcurh
      · simpa using hr
    · exact List.mem_append_right _ (List.mem_singleton_self self)
    · rw [List.map_append, List.map_map]
      have hpk : db.map (Hunt.pk ∘ (fun h => { h with is_current_hunt := false }))
          = db.map Hunt.pk := rfl
      rw [hpk]
      rw [List.nodup_append]
      refine ⟨hnd, List.nodup_singleton _, ?_⟩
      intro x hx hx1
      rcases List.mem_map.mp hx with ⟨a, ha, rfl⟩
      have := List.any_eq_false.mp hany a ha
      simp only [List.mem_singleton, List.map_cons, List.map_nil] at hx1
      exact this (by simp [hx1])

/-- Witness for C1_save_current_singleton: saving current `huntA` into a
database holding current `huntB` leaves exactly one current hunt. -/
theorem C1_save_current_singleton_witness :
    ([huntB].map Hunt.pk).Nodup ∧
    ∃ db', Hunt.save [huntB] huntA = Except.ok db' ∧
      db'.countP (fun h => h.is_current_hunt) = 1 ∧
      (∀ h ∈ db', h.is_current_hunt = true → h = huntA) ∧
      huntA ∈ db' ∧ (db'.map Hunt.pk).Nodup :=
  ⟨by decide, C1_save_current_singleton [huntB] huntA (by decide) rfl⟩

/-- One Solve-creation step of the grader preserves the
at-most-one-Solve-per-pair invariant. -/
lemma solveUnique_grade_step (d : List Solve) (s : Solve) (h : SolveUnique d) :
    SolveUnique (gradeCreateSolve d s) := by
  by_cases hc : d.any
      (fun t => t.puzzle_pk == s.puzzle_pk && t.team_pk == s.team_pk) = true
  · simp only [gradeCreateSolve, insertSolve, hc, if_true]
    exact h
  · rw [Bool.not_eq_true] at hc
    simp only [gradeCreateSolve, insertSolve, hc, Bool.false_eq_true, if_false]
    intro p t
    rw [List.countP_append]
    by_cases hm : (s.puzzle_pk == p && s.team_pk == t) = true
    · have hd0 : d.countP (fun u => u.puzzle_pk == p && u.team_pk == t) = 0 := by
        rw [List.countP_eq_zero]
        intro a ha hpair
        have hnot := List.any_eq_false.mp hc a ha
        apply hnot
        simp only [Bool.and_eq_true, beq_iff_eq] at hm hpair ⊢
        exact ⟨by rw [hpair.1, ← hm.1], by rw [hpair.2, ← hm.2]⟩
      rw [hd0]
      simp [List.countP_cons, hm]
    · have hs0 : List.countP (fun u => u.puzzle_pk == p && u.team_pk == t)
          [s] = 0 := by
        simp only [List.countP_cons, List.countP_nil, hm]
        simp
      rw [hs0]
      simpa using h p t

/-- Any sequence of grader Solve-creation steps preserves the invariant. -/
lemma solveUnique_grade_fold (ss : List Solve) :
    ∀ d : List Solve, SolveUnique d →
      SolveUnique (ss.foldl gradeCreateSolve d) := by
  induction ss with
  | nil => intro d hd; exact hd
  | cons a t ih => intro d hd; exact ih _ (solveUnique_grade_step d a hd)

/-- C5: under the `unique_together ('puzzle', 'team')` constraint, the
grader's Solve creation never leaves two Solve rows for one (team, puzzle)
pair, over any sequence of attempts; and an attempt for a pair that already
has a Solve changes nothing (the constraint failure is caught and treated as
already-solved, so the pipeline always completes). -/
theorem C5_solve_unique (db : List Solve) (hinv : SolveUnique db) :
    (∀ ss : List Solve, SolveUnique (ss.foldl gradeCreateSolve db)) ∧
    (∀ s : Solve,
      db.any (fun t => t.puzzle_pk == s.puzzle_pk && t.team_pk == s.team_pk)
        = true →
      gradeCreateSolve db s = db) := by
  constructor
  · intro ss
    exact solveUnique_grade_fold ss db hinv
  · intro s hs
    simp [gradeCreateSolve, insertSolve, hs]

/-- A concrete Solve row. -/
def solveA : Solve := { puzzle_pk := 1, team_pk := 1, submission_pk := 1 }

/-- Witness for C5_solve_unique at the one-row table `[solveA]`. -/
theorem C5_solve_unique_witness :
    SolveUnique [solveA] ∧
    ((∀ ss : List Solve, SolveUnique (ss.foldl gradeCreateSolve [solveA])) ∧
     (∀ s : Solve,
       List.any [solveA]
         (fun t => t.puzzle_pk == s.puzzle_pk && t.team_pk == s.team_pk)
         = true →
       gradeCreateSolve [solveA] s = [solveA])) := by
  have h1 : SolveUnique [solveA] := by
    intro p t
    simp only [List.countP_cons, List.countP_nil]
    split <;> simp
  exact ⟨h1, C5_solve_unique [solveA] h1⟩

/-- A generated join code has exactly 5 characters. -/
lemma genJoinCode_length (choice : Nat → Nat) :
    (genJoinCode choice).length = 5 := rfl

/-- Every character of a generated join code is drawn from the alphabet. -/
lemma genJoinCode_mem (choice : Nat → Nat) :
    ∀ c ∈ (genJoinCode choice).data, c ∈ joinCodeAlphabet.data := by
  intro c hc
  have hc' : c ∈ (List.range 5).map
      (fun i => joinCodeAlphabet.toList.getD
        (choice i % joinCodeAlphabet.length) 'A') := hc
  rcases List.mem_map.mp hc' with ⟨i, _, rfl⟩
  have hlt : choice i % joinCodeAlphabet.length
      < joinCodeAlphabet.toList.length := by
    have h32 : joinCodeAlphabet.toList.length = 32 := by decide
    have hpos : 0 < joinCodeAlphabet.length := by decide
    have := Nat.mod_lt (choice i) hpos
    have hsame : joinCodeAlphabet.length = joinCodeAlphabet.toList.length := rfl
    omega
  rw [List.getD_eq_getElem _ _ hlt]
  exact List.getElem_mem hlt

/-- C7: creating a team rejects a name that case-insensitively equals an
existing team name in the same hunt, creating nothing; on success (name not
a duplicate and non-empty) it appends exactly one team whose join code has 5
characters over the unambiguous alphabet and whose sole member is the
creating person; the alphabet excludes '0', '1', 'O' and 'I'. -/
theorem C7_create_team (db : List Team) (curr_hunt_pk : Nat)
    (name need_room : String) (person_pk : Nat) (choice : Nat → Nat)
    (newpk : Nat) :
    (((db.filter (fun t => t.hunt_pk == curr_hunt_pk)).any
        (fun t => strLower t.team_name == strLower name) = true) →
      newTeam db curr_hunt_pk name need_room person_pk choice newpk
        = (db, CreateOutcome.fail_exists)) ∧
    (((db.filter (fun t => t.hunt_pk == curr_hunt_pk)).any
        (fun t => strLower t.team_name == strLower name) = false) →
      name ≠ "" →
      ∃ t : Team,
        newTeam db curr_hunt_pk name need_room person_pk choice newpk
          = (db ++ [t], CreateOutcome.created t) ∧
        t.join_code.length = 5 ∧
        (∀ c ∈ t.join_code.data, c ∈ joinCodeAlphabet.data) ∧
        t.members = [person_pk] ∧ t.team_name = name ∧
        t.hunt_pk = curr_hunt_pk) ∧
    ('0' ∉ joinCodeAlphabet.data ∧ '1' ∉ joinCodeAlphabet.data ∧
     'O' ∉ joinCodeAlphabet.data ∧ 'I' ∉ joinCodeAlphabet.data) := by
  refine ⟨fun hdup => ?_, fun hdup hname => ?_, by decide⟩
  · simp [newTeam, hdup]
  · refine ⟨Team.mk newpk name curr_hunt_pk need_room (genJoinCode choice)
      false [person_pk], ?_, genJoinCode_length choice,
      genJoinCode_mem choice, rfl, rfl, rfl⟩
    simp [newTeam, hdup, hname]

/-- A concrete stored team named "Foo" in `huntA`, at capacity 2, with
join code "XY234". -/
def teamFoo : Team :=
  { pk := 10, team_name := "Foo", hunt_pk := 1, location := "GHC 4102",
    join_code := "XY234", playtester := false, members := [100, 101] }

/-- Witness for C7_create_team: against a table holding "Foo", creating
"FOO" fails as existing, and creating "Bar" appends the new team with the
caller as the sole member. -/
theorem C7_create_team_witness :
    (newTeam [teamFoo] 1 "FOO" "yes" 102 (fun _ => 7) 11
      = ([teamFoo], CreateOutcome.fail_exists)) ∧
    ∃ t : Team,
      newTeam [teamFoo] 1 "Bar" "yes" 102 (fun _ => 7) 11
        = ([teamFoo] ++ [t], CreateOutcome.created t) ∧
      t.join_code.length = 5 ∧
      (∀ c ∈ t.join_code.data, c ∈ joinCodeAlphabet.data) ∧
      t.members = [102] ∧ t.team_name = "Bar" ∧ t.hunt_pk = 1 :=
  ⟨(C7_create_team [teamFoo] 1 "FOO" "yes" 102 (fun _ => 7) 11).1 (by decide),
   (C7_create_team [teamFoo] 1 "Bar" "yes" 102 (fun _ => 7) 11).2.1
     (by decide) (by decide)⟩

/-- C8: with the target team found, joining fails with `fail-full` exactly
when the member count is already at (or beyond) the hunt's `team_size`;
fails with `fail-password` exactly when the team is not full and the
supplied code does not case-insensitively match the join code (so a code
differing only in letter case is accepted); and otherwise appends the
person to the team's membership. -/
theorem C8_join_team (db : List Team) (curr : Hunt) (name code : String)
    (person_pk : Nat) (team : Team)
    (hget : getTeamExact db curr.pk name = some team) :
    ((joinTeam db curr name code person_pk).2 = JoinOutcome.fail_full ↔
      (team.members.length : Int) ≥ curr.team_size) ∧
    ((joinTeam db curr name code person_pk).2 = JoinOutcome.fail_password ↔
      ((team.members.length : Int) < curr.team_size ∧
        strLower team.join_code ≠ strLower code)) ∧
    ((team.members.length : Int) < curr.team_size →
      strLower team.join_code = strLower code →
      (joinTeam db curr name code person_pk).2
        = JoinOutcome.joined
            { team with members := team.members ++ [person_pk] }) := by
  by_cases hfull : (team.members.length : Int) ≥ curr.team_size
  · have hj : joinTeam db curr name code person_pk
        = (db, JoinOutcome.fail_full) := by
      simp only [joinTeam, hget]
      rw [if_pos hfull]
    rw [hj]
    refine ⟨by simp [hfull], ?_, fun hlt _ => absurd hfull (not_le.mpr hlt)⟩
    constructor
    · intro h
      exact absurd h (by simp)
    · rintro ⟨hlt, -⟩
      exact absurd hfull (not_le.mpr hlt)
  · by_cases hcode : strLower team.join_code ≠ strLower code
    · have hj : joinTeam db curr name code person_pk
          = (db, JoinOutcome.fail_password) := by
        simp only [joinTeam, hget]
        rw [if_neg hfull, if_pos hcode]
      rw [hj]
      refine ⟨⟨fun h => absurd h (by simp), fun h => absurd h hfull⟩,
        ⟨fun _ => ⟨not_le.mp hfull, hcode⟩, fun _ => rfl⟩,
        fun _ hmatch => absurd hmatch hcode⟩
    · have hj : joinTeam db curr name code person_pk
          = (db.map (fun t => if t.pk == team.pk
              then { team with members := team.members ++ [person_pk] } else t),
             JoinOutcome.joined
               { team with members := team.members ++ [person_pk] }) := by
        simp only [joinTeam, hget]
        rw [if_neg hfull, if_neg hcode]
      rw [hj]
      refine ⟨⟨fun h => absurd h (by simp), fun h => absurd h hfull⟩,
        ⟨fun h => absurd h (by simp), fun h => absurd h.2 hcode⟩,
        fun _ _ => rfl⟩

/-- A concrete team "Bar" of `huntA` with one member and join code
"XY234". -/
def teamBar : Team :=
  { pk := 11, team_name := "Bar", hunt_pk := 1, location := "",
    join_code := "XY234", playtester := false, members := [100] }

/-- Witness for C8_join_team: a code differing from "XY234" only in case is
accepted and the person is appended. -/
theorem C8_join_team_witness :
    getTeamExact [teamBar] huntA.pk "Bar" = some teamBar ∧
    (joinTeam [teamBar] huntA "Bar" "xy234" 102).2
      = JoinOutcome.joined { teamBar with members := [100, 102] } :=
  ⟨by decide,
   (C8_join_team [teamBar] huntA "Bar" "xy234" 102 teamBar (by decide)).2.2
     (by decide) (by decide)⟩

/-- C9: the capacity check precedes the join-code check: a full team
answers `fail-full` whatever code is supplied, so a full team with a wrong
code never reports a bad password. -/
theorem C9_full_precedes_bad_code (db : List Team) (curr : Hunt)
    (name code : String) (person_pk : Nat) (team : Team)
    (hget : getTeamExact db curr.pk name = some team)
    (hfull : (team.members.length : Int) ≥ curr.team_size) :
    joinTeam db curr name code person_pk = (db, JoinOutcome.fail_full) := by
  simp only [joinTeam, hget]
  rw [if_pos hfull]

/-- Witness for C9_full_precedes_bad_code: team "Foo" is at `huntA`'s
capacity of 2 and the supplied code "WRONG" does not match its join code,
yet the outcome is `fail-full`. -/
theorem C9_full_precedes_bad_code_witness :
    getTeamExact [teamFoo] huntA.pk "Foo" = some teamFoo ∧
    strLower teamFoo.join_code ≠ strLower "WRONG" ∧
    joinTeam [teamFoo] huntA "Foo" "WRONG" 102
      = ([teamFoo], JoinOutcome.fail_full) :=
  ⟨by decide, by decide,
   C9_full_precedes_bad_code [teamFoo] huntA "Foo" "WRONG" 102 teamFoo
     (by decide) (by decide)⟩

/-- C10: the join branch looks the team up by case-sensitive exact name.
When the hunt's team names are case-insensitively distinct and a team
matches the requested name only up to letter case, the lookup finds
nothing: the request ends in the untyped lookup error, no membership is
added, and neither `fail-full` nor `fail-password` is reported. -/
theorem C10_lookup_case_sensitive (db : List Team) (curr : Hunt)
    (name code : String) (person_pk : Nat) (t0 : Team)
    (hci : ∀ t1 ∈ db, ∀ t2 ∈ db, t1.hunt_pk = curr.pk → t2.hunt_pk = curr.pk →
      strLower t1.team_name = strLower t2.team_name → t1 = t2)
    (ht0 : t0 ∈ db) (hhunt : t0.hunt_pk = curr.pk)
    (hcieq : strLower t0.team_name = strLower name)
    (hne : t0.team_name ≠ name) :
    joinTeam db curr name code person_pk = (db, JoinOutcome.lookup_error) := by
  have hfilter :
      db.filter (fun t => t.hunt_pk == curr.pk && t.team_name == name)
        = [] := by
    rw [List.filter_eq_nil_iff]
    intro t ht hp
    simp only [Bool.and_eq_true, beq_iff_eq] at hp
    have hlow : strLower t.team_name = strLower t0.team_name := by
      rw [hp.2, ← hcieq]
    have heq : t = t0 := hci t ht t0 ht0 hp.1 hhunt hlow
    rw [heq] at hp
    exact hne hp.2
  simp only [joinTeam, getTeamExact, hfilter]

/-- Witness for C10_lookup_case_sensitive: the table holds "Foo"; asking to
join "foo" with the correct code ends in the lookup error. -/
theorem C10_lookup_case_sensitive_witness :
    strLower ((teamFoo : Team).team_name) = strLower "foo" ∧
    (teamFoo : Team).team_name ≠ "foo" ∧
    joinTeam [teamFoo] huntA "foo" "XY234" 102
      = ([teamFoo], JoinOutcome.lookup_error) :=
  ⟨by decide, by decide,
   C10_lookup_case_sensitive [teamFoo] huntA "foo" "XY234" 102 teamFoo
     (by decide) (by decide) (by decide) (by decide) (by decide)⟩

/-- C3: the claim says the hunt is open iff start_date <= now < end_date and
public iff now >= end_date, with exactly one of locked/open/public holding at
every instant including the boundaries. The code compares strictly
(`is_open` is now > start and now < end, `is_public` is now > end), so at
now = start_date the claimed partition fails: the hunt is neither locked,
open nor public. -/
theorem C3_boundary_counterexample :
    ¬ ((huntA.is_locked 5 = true ↔ 5 < huntA.start_date) ∧
       (huntA.is_open 5 = true ↔ (huntA.start_date ≤ 5 ∧ 5 < huntA.end_date)) ∧
       (huntA.is_public 5 = true ↔ huntA.end_date ≤ 5)) := by
  decide

/-- C3 (amended): the derived states use strict comparisons: locked iff
now < start_date, open iff start_date < now < end_date, public iff
now > end_date. For a hunt with start_date < end_date, at every instant
other than now = start_date and now = end_date exactly one of the three
holds, and at those two boundary instants none of them holds. -/
theorem C3_state_partition (h : Hunt) (now : Int)
    (hlt : h.start_date < h.end_date) :
    (h.is_locked now = true ↔ now < h.start_date) ∧
    (h.is_open now = true ↔ (h.start_date < now ∧ now < h.end_date)) ∧
    (h.is_public now = true ↔ h.end_date < now) ∧
    ((now = h.start_date ∨ now = h.end_date) →
      h.is_locked now = false ∧ h.is_open now = false ∧
      h.is_public now = false) ∧
    (now ≠ h.start_date → now ≠ h.end_date →
      ((h.is_locked now = true ∧ h.is_open now = false ∧
          h.is_public now = false) ∨
       (h.is_locked now = false ∧ h.is_open now = true ∧
          h.is_public now = false) ∨
       (h.is_locked now = false ∧ h.is_open now = false ∧
          h.is_public now = true))) := by
  simp only [Hunt.is_locked, Hunt.is_open, Hunt.is_public, Bool.and_eq_true,
    Bool.and_eq_false_iff, decide_eq_true_eq, decide_eq_false_iff_not,
    gt_iff_lt, not_lt, true_and]
  omega

/-- Witness for C3_state_partition at `huntA` and now = 7. -/
theorem C3_state_partition_witness :
    huntA.start_date < huntA.end_date ∧
    (huntA.is_open 7 = true ↔ (huntA.start_date < 7 ∧ 7 < huntA.end_date)) :=
  ⟨by decide, (C3_state_partition huntA 7 (by decide)).2.1⟩

/-- C4: a submission is graded correct iff its text equals the puzzle's
canonical answer under case-insensitive comparison; in particular "banana"
against answer "BANANA" is correct. -/
theorem C4_grading_case_insensitive :
    (∀ s : Submission,
      s.is_correct = true ↔
        specCaseInsensitiveEq s.submission_text s.puzzle.answer) ∧
    bananaSubmission.is_correct = true := by
  refine ⟨fun s => ?_, by decide⟩
  simp [Submission.is_correct, specCaseInsensitiveEq]

/-- C6: saving a submission stamps `modified_date` with the save time and
leaves every other field unchanged. -/
theorem C6_save_timestamps (s : Submission) (now : Int) :
    (s.save now).modified_date = now ∧
    (s.save now).team_pk = s.team_pk ∧
    (s.save now).submission_time = s.submission_time ∧
    (s.save now).submission_text = s.submission_text ∧
    (s.save now).response_text = s.response_text ∧
    (s.save now).puzzle = s.puzzle := by
  simp [Submission.save]

/-- C2: updating the stored current hunt with `is_current_hunt = false` is
rejected by validation (the save raises a `ValidationError`), and the
rejected save leaves the database unchanged. -/
theorem C2_cannot_unset_current (db : List Hunt) (old self : Hunt)
    (hfind : db.find? (fun h => h.pk == self.pk) = some old)
    (hold : old.is_current_hunt = true)
    (hself : self.is_current_hunt = false) :
    Hunt.save db self = Except.error "There must always be one current hunt" ∧
    Hunt.saveOrKeep db self = db := by
  have hclean :
      Hunt.clean db self = Except.error "There must always be one current hunt" := by
    unfold Hunt.clean
    rw [hself, hfind]
    simp [hold]
  have hsave :
      Hunt.save db self = Except.error "There must always be one current hunt" := by
    unfold Hunt.save
    rw [hclean]
  exact ⟨hsave, by unfold Hunt.saveOrKeep; rw [hsave]⟩

/-- Witness for C2_cannot_unset_current: `huntA` is stored current, and a
save of `huntAOff` (same pk, flag cleared) is rejected without change. -/
theorem C2_cannot_unset_current_witness :
    List.find? (fun h => h.pk == huntAOff.pk) [huntA] = some huntA ∧
    Hunt.save [huntA] huntAOff
      = Except.error "There must always be one current hunt" ∧
    Hunt.saveOrKeep [huntA] huntAOff = [huntA] :=
  ⟨by decide, C2_cannot_unset_current [huntA] huntA huntAOff (by decide) rfl rfl⟩

end Huntserver
